import Mathlib

set_option maxHeartbeats 1000000
set_option maxRecDepth 4096
set_option linter.unusedVariables false

namespace Agent

/- Shallow embedding of the metrika agent core (fingerprint package,
   global stream registry, watch lifecycle primitives, timer watch,
   algorand discovery adapter).  Go machine integers are modelled as
   Nat reduced mod 2^32 where overflow matters; byte slices as
   List Nat with bytes taken mod 256 at use sites. -/

/-- Reduce a natural number to a 32-bit word, as Go uint32 arithmetic does. -/
def w32 (n : Nat) : Nat := n % 4294967296

/-- Right rotation of a 32-bit word by r positions. -/
def rotr32 (r x : Nat) : Nat := w32 ((x >>> r) ||| (x <<< (32 - r)))

/-- SHA-256 choice function. -/
def ch32 (x y z : Nat) : Nat := (x &&& y) ^^^ ((x ^^^ 4294967295) &&& z)

/-- SHA-256 majority function. -/
def maj32 (x y z : Nat) : Nat := (x &&& y) ^^^ (x &&& z) ^^^ (y &&& z)

/-- SHA-256 big sigma 0. -/
def bsig0 (x : Nat) : Nat := rotr32 2 x ^^^ rotr32 13 x ^^^ rotr32 22 x

/-- SHA-256 big sigma 1. -/
def bsig1 (x : Nat) : Nat := rotr32 6 x ^^^ rotr32 11 x ^^^ rotr32 25 x

/-- SHA-256 small sigma 0. -/
def ssig0 (x : Nat) : Nat := rotr32 7 x ^^^ rotr32 18 x ^^^ (x >>> 3)

/-- SHA-256 small sigma 1. -/
def ssig1 (x : Nat) : Nat := rotr32 17 x ^^^ rotr32 19 x ^^^ (x >>> 10)

/-- The 64 SHA-256 round constants (FIPS 180-4), written in decimal. -/
def sha256K : List Nat :=
  [1116352408, 1899447441, 3049323471, 3921009573, 961987163, 1508970993, 2453635748,
   2870763221, 3624381080, 310598401, 607225278, 1426881987, 1925078388, 2162078206,
   2614888103, 3248222580, 3835390401, 4022224774, 264347078, 604807628, 770255983,
   1249150122, 1555081692, 1996064986, 2554220882, 2821834349, 2952996808, 3210313671,
   3336571891, 3584528711, 113926993, 338241895, 666307205, 773529912, 1294757372,
   1396182291, 1695183700, 1986661051, 2177026350, 2456956037, 2730485921, 2820302411,
   3259730800, 3345764771, 3516065817, 3600352804, 4094571909, 275423344, 430227734,
   506948616, 659060556, 883997877, 958139571, 1322822218, 1537002063, 1747873779,
   1955562222, 2024104815, 2227730452, 2361852424, 2428436474, 2756734187, 3204031479,
   3329325298]

/-- Append SHA-256 padding: the 0x80 byte, zero bytes, then the bit length
    as 8 big-endian bytes, so that the total length is a multiple of 64. -/
def padBytes (msg : List Nat) : List Nat :=
  let l := msg.length
  let r := (l + 9) % 64
  let k := if r = 0 then 0 else 64 - r
  let bits := 8 * l
  msg.map (· % 256) ++ [128] ++ List.replicate k 0 ++
    [(bits >>> 56) % 256, (bits >>> 48) % 256, (bits >>> 40) % 256, (bits >>> 32) % 256,
     (bits >>> 24) % 256, (bits >>> 16) % 256, (bits >>> 8) % 256, bits % 256]

/-- Assemble n big-endian 32-bit words from a byte list. -/
def bytesToWords : Nat → List Nat → List Nat
  | 0, _ => []
  | n + 1, l =>
    ((l.getD 0 0 % 256) * 16777216 + (l.getD 1 0 % 256) * 65536 +
      (l.getD 2 0 % 256) * 256 + l.getD 3 0 % 256) :: bytesToWords n (l.drop 4)

/-- Extend the message schedule n times; acc holds the schedule so far,
    most recent word first. -/
def extendSched : Nat → List Nat → List Nat
  | 0, acc => acc
  | n + 1, acc =>
    extendSched n
      (w32 (ssig1 (acc.getD 1 0) + acc.getD 6 0 + ssig0 (acc.getD 14 0) + acc.getD 15 0) :: acc)

/-- The 64-word message schedule of one 64-byte block. -/
def schedule (block : List Nat) : List Nat :=
  (extendSched 48 (bytesToWords 16 block).reverse).reverse

/-- The eight 32-bit working registers of the SHA-256 compression function
    (also used for the running hash state H0..H7). -/
structure Regs where
  a : Nat
  b : Nat
  c : Nat
  d : Nat
  e : Nat
  f : Nat
  g : Nat
  h : Nat
deriving DecidableEq, Repr

/-- One SHA-256 round, consuming a (round constant, schedule word) pair. -/
def roundStep (kw : Nat × Nat) (r : Regs) : Regs :=
  let t1 := w32 (r.h + bsig1 r.e + ch32 r.e r.f r.g + kw.1 + kw.2)
  let t2 := w32 (bsig0 r.a + maj32 r.a r.b r.c)
  ⟨w32 (t1 + t2), r.a, r.b, r.c, w32 (r.d + t1), r.e, r.f, r.g⟩

/-- Fold the 64 rounds over the (constant, schedule) pairs. -/
def roundsFold (l : List (Nat × Nat)) (r : Regs) : Regs :=
  l.foldl (fun r kw => roundStep kw r) r

/-- The SHA-256 initial hash value (FIPS 180-4), written in decimal. -/
def initH : Regs :=
  ⟨1779033703, 3144134277, 1013904242, 2773480762,
   1359893119, 2600822924, 528734635, 1541459225⟩

/-- Compress one 64-byte block into the running hash state. -/
def processBlock (hs : Regs) (block : List Nat) : Regs :=
  let w := schedule block
  let r := roundsFold (sha256K.zip w) hs
  ⟨w32 (hs.a + r.a), w32 (hs.b + r.b), w32 (hs.c + r.c), w32 (hs.d + r.d),
   w32 (hs.e + r.e), w32 (hs.f + r.f), w32 (hs.g + r.g), w32 (hs.h + r.h)⟩

/-- Split a padded message into n blocks of 64 bytes. -/
def splitBlocks : Nat → List Nat → List (List Nat)
  | 0, _ => []
  | n + 1, l => l.take 64 :: splitBlocks n (l.drop 64)

/-- The SHA-256 hash state after absorbing the whole (padded) message. -/
def sha256Words (msg : List Nat) : Regs :=
  let padded := padBytes msg
  (splitBlocks (padded.length / 64) padded).foldl processBlock initH

/-- Big-endian bytes of a 32-bit word. -/
def wordBytes (w : Nat) : List Nat :=
  [(w >>> 24) % 256, (w >>> 16) % 256, (w >>> 8) % 256, w % 256]

/-- The 32-byte SHA-256 digest of a message. -/
def sha256Bytes (msg : List Nat) : List Nat :=
  let r := sha256Words msg
  wordBytes r.a ++ wordBytes r.b ++ wordBytes r.c ++ wordBytes r.d ++
    wordBytes r.e ++ wordBytes r.f ++ wordBytes r.g ++ wordBytes r.h

/-- The sixteen lowercase hexadecimal digit characters, the alphabet Go
    fmt %x prints with. -/
def hexDigitChars : List Char :=
  "0123456789abcdef".data

/-- Two lowercase hex characters of one byte, as Go fmt %x prints it. -/
def byteHex (b : Nat) : List Char :=
  [hexDigitChars.getD (b / 16 % 16) '0', hexDigitChars.getD (b % 16) '0']

/-- The lowercase hexadecimal SHA-256 digest string of a byte list;
    the embedding of Go fmt.Sprintf %x of sha256 Sum. -/
def sha256hex (msg : List Nat) : String :=
  String.mk ((sha256Bytes msg).flatMap byteHex)

/-- Embedding of the Go Fingerprint struct: the io.Writer field is an
    abstract handle (a Nat identifier), the hash field the digest string. -/
structure Fingerprint where
  out : Nat
  hash : String
deriving DecidableEq, Repr

/-- Embedding of the Go error values the fingerprint package produces:
    the distinguished ValidationError type versus plain construction errors. -/
inductive FPError
  | validation (msg : String)
  | construction (msg : String)
deriving DecidableEq, Repr

/-- The message format of the hash-mismatch error, carrying both digests. -/
def mismatchMsg (prevHash newHash : String) : String :=
  "hash mismatch detected, expected " ++ prevHash ++ ", got " ++ newHash

/-- Embedding of fingerprint.validate.  The io.Reader argument is modelled
    by the string content of a successful ReadAll (the I/O error branch is
    out of scope: the claims assume the previous store is readable), and Go
    len on an ASCII digest string is String.length. -/
def validate (newfp : Fingerprint) (prev : String) : Except FPError Unit :=
  if 1 < prev.length ∧ prev ≠ newfp.hash then
    Except.error (FPError.validation (mismatchMsg prev newfp.hash))
  else Except.ok ()

/-- Embedding of fingerprint.New.  Per the crypto hash contract, Write on a
    sha256 state returns (len(val), nil), so the written-count n is
    val.length; sha256.BlockSize is 64. -/
def New (out : Nat) (val : List Nat) : Except FPError Fingerprint :=
  let n := val.length
  if n ≠ val.length then
    Except.error (FPError.construction "unexpected number of bytes written")
  else
    let hstr := sha256hex val
    if hstr.length < 64 then
      Except.error (FPError.construction "unexpected hash length")
    else Except.ok ⟨out, hstr⟩

/-- Embedding of fingerprint.NewWithValidation: compose New and validate. -/
def NewWithValidation (val : List Nat) (out : Nat) (prev : String) :
    Except FPError Fingerprint :=
  match New out val with
  | Except.error e => Except.error e
  | Except.ok newfp =>
    match validate newfp prev with
    | Except.error e => Except.error e
    | Except.ok _ => Except.ok newfp

/- Embedding of the global package (StreamRegisterer) together with an
   operational model of the one shared Go channel its Start method hands
   to every registered sink.  Sinks and channels are identified by Nat;
   samples are Nat. -/

/-- Embedding of global.StreamRegisterer: the ordered list of registered
    streams (sinks), identified by Nat. -/
structure StreamRegisterer where
  streams : List Nat
deriving DecidableEq, Repr

/-- Embedding of StreamRegisterer.Register: append the sinks in order. -/
def Register (r : StreamRegisterer) (ws : List Nat) : StreamRegisterer :=
  ⟨r.streams ++ ws⟩

/-- Embedding of StreamRegisterer.Start: call each sink's Start in
    registration order, handing every one the SAME channel ch; the result
    records, in call order, which sink was started on which channel. -/
def StreamRegisterer.Start (r : StreamRegisterer) (ch : Nat) : List (Nat × Nat) :=
  r.streams.map (fun s => (s, ch))

/-- One event on the shared channel: the producer pushes a sample, or the
    sink with the given index attempts a receive. -/
inductive ChEvent
  | push (s : Nat)
  | recv (sink : Nat)
deriving DecidableEq, Repr

/-- State of the shared channel system: the queued samples still in the
    channel, and the log of deliveries (sink, sample) in delivery order. -/
structure ChState where
  queue : List Nat
  log : List (Nat × Nat)
deriving DecidableEq, Repr

/-- Go channel semantics for one event: a push enqueues at the back; a
    receive by sink i dequeues the front sample and delivers it to i alone
    (competing consumers of a single channel partition the stream); a
    receive on an empty channel blocks, so nothing happens. -/
def chStep (st : ChState) : ChEvent → ChState
  | ChEvent.push s => ⟨st.queue ++ [s], st.log⟩
  | ChEvent.recv i =>
    match st.queue with
    | [] => st
    | s :: rest => ⟨rest, st.log ++ [(i, s)]⟩

/-- Run a sequence of channel events from the empty channel. -/
def chRun (evs : List ChEvent) : ChState :=
  evs.foldl chStep ⟨[], []⟩

/-- The samples pushed by a sequence of events, in push order. -/
def pushesOf : List ChEvent → List Nat
  | [] => []
  | ChEvent.push s :: r => s :: pushesOf r
  | ChEvent.recv _ :: r => pushesOf r

/-- The sequence of samples sink i observed, in delivery order. -/
def observed (st : ChState) (i : Nat) : List Nat :=
  (st.log.filter (fun p => p.1 == i)).map Prod.snd

/-- Whether every receive event targets sink 0 (the single-sink setting). -/
def recvsOnlySink0 (evs : List ChEvent) : Bool :=
  evs.all (fun e => match e with | ChEvent.push _ => true | ChEvent.recv i => i == 0)

/- Embedding of the watch package.  The Watch struct's function fields
   (StartFn, StopFn) and channel sends are modelled by ghost counters
   recording how many times each side effect ran; the sync.Once gate by a
   Bool flag (sync.Once serializes concurrent Do calls, so any concurrent
   execution is equivalent to some sequential order of the calls);
   subscriber channels by Nat handles. -/

/-- Embedding of watch.Watch.  startUnsafeRuns counts executions of the
    producer startup body guarded by the once gate; stopFnRuns counts
    executions of the StopFn teardown; stopKeySends counts sends on the
    StopKey channel. -/
structure Watch where
  Running : Bool
  onceDone : Bool
  startUnsafeRuns : Nat
  stopFnRuns : Nat
  stopKeySends : Nat
  listeners : List Nat
deriving DecidableEq, Repr

/-- Embedding of watch.NewWatch. -/
def NewWatch : Watch :=
  ⟨false, false, 0, 0, 0, []⟩

/-- Embedding of Watch.StartUnsafe: set Running and run the startup body
    (recorded by the ghost counter). -/
def StartUnsafe (w : Watch) : Watch :=
  { w with Running := true, startUnsafeRuns := w.startUnsafeRuns + 1 }

/-- Embedding of watch.Start: the once gate runs StartUnsafe only if it
    has never run before (sync.Once.Do). -/
def Start (w : Watch) : Watch :=
  if w.onceDone then w else { StartUnsafe w with onceDone := true }

/-- Embedding of Watch.Stop: no-op unless Running; otherwise clear Running,
    run StopFn, and send once on StopKey. -/
def Stop (w : Watch) : Watch :=
  if w.Running then
    { w with
      Running := false
      stopFnRuns := w.stopFnRuns + 1
      stopKeySends := w.stopKeySends + 1 }
  else w

/-- Embedding of Watch.Subscribe: append the handler channel. -/
def Subscribe (w : Watch) (handler : Nat) : Watch :=
  { w with listeners := w.listeners ++ [handler] }

/-- Embedding of Watch.Emit: a blocking send of the message to each
    listener, iterating the listeners in subscription order; the result is
    the sequence of deliveries (target, message) in the order they are
    performed.  The Go method returns nothing, so there is no error case. -/
def Emit (w : Watch) (message : Nat) : List (Nat × Nat) :=
  w.listeners.map (fun handler => (handler, message))

/- Embedding of the TimerWatch scheduled producer. -/

/-- Embedding of watch.TimerWatchConf; a Go time.Duration is an int64
    count of nanoseconds, modelled as Int. -/
structure TimerWatchConf where
  Interval : Int
deriving DecidableEq, Repr

/-- Go time.Second in nanoseconds. -/
def timeSecond : Int := 1000000000

/-- Embedding of watch.TimerWatch: configuration plus the embedded Watch. -/
structure TimerWatch where
  conf : TimerWatchConf
  watch : Watch
deriving DecidableEq, Repr

/-- Embedding of watch.NewTimerWatch: take the configured interval, and
    default to one second when it is less than 1 (unset or non-positive). -/
def NewTimerWatch (conf : TimerWatchConf) : TimerWatch :=
  let w : TimerWatch := ⟨conf, NewWatch⟩
  if w.conf.Interval < 1 then ⟨⟨timeSecond⟩, w.watch⟩ else w

/-- One iteration of the select in TimerWatch.timerLoop: which of the two
    cases was ready when the select completed, and which one it chose
    (pickStop true picks the StopKey case, false the timer case).  When
    both cases are ready, a Go select chooses one of them at random. -/
structure LoopIter where
  timerReady : Bool
  stopReady : Bool
  pickStop : Bool
deriving DecidableEq, Repr

/-- A select can only choose a ready case. -/
def validIter (it : LoopIter) : Bool :=
  if it.pickStop then it.stopReady else it.timerReady

/-- Whether a whole schedule of iterations is a possible select behavior. -/
def validSched (l : List LoopIter) : Bool :=
  l.all validIter

/-- Embedding of TimerWatch.timerLoop run under a schedule of select
    outcomes: each iteration either observes the stop signal and returns,
    or observes the elapsed timer, emits the sample 0, and loops.  The
    result is the list of emitted samples in emission order. -/
def timerLoopRun : List LoopIter → List Nat
  | [] => []
  | it :: rest => if it.pickStop then [] else 0 :: timerLoopRun rest

/- Embedding of the algorand discovery adapter.  A Go function that can
   panic is modelled as returning GoResult: ok with the returned value, or
   panicked with the panic message. -/

/-- Result of running a Go function that may panic. -/
inductive GoResult (α : Type)
  | ok (a : α)
  | panicked (msg : String)
deriving DecidableEq, Repr

/-- Embedding of algorand.Algorand, a struct with no fields. -/
structure Algorand where
deriving DecidableEq, Repr

/-- Embedding of Algorand.IsConfigured.  The body is the stub
    panic("implement me!"); its own comment documents the intended
    behavior (false if any config field is empty, else true). -/
def IsConfigured (_a : Algorand) : GoResult Bool :=
  GoResult.panicked "implement me!"

/-- Embedding of Algorand.ResetConfig.  The body is the stub
    panic("implement me!"); on a normal return the Go error result would
    be modelled as Option String (none meaning nil). -/
def ResetConfig (_a : Algorand) : GoResult (Option String) :=
  GoResult.panicked "implement me!"

/- Support lemmas about the SHA-256 digest shape.  First, two standard
   test vectors pinning the digest function to SHA-256. -/

example : sha256hex [] =
    "e3b0c44298fc1c149afbf4c8996fb92427ae41e4649b934ca495991b7852b855" := by decide

example : sha256hex [97, 98, 99] =
    "ba7816bf8f01cfea414140de5dae2223b00361a396177a9cb410ff61f20015ad" := by decide

/-- The big-endian byte list of a word has four bytes. -/
lemma wordBytes_length (w : Nat) : (wordBytes w).length = 4 := rfl

/-- A SHA-256 digest has exactly 32 bytes. -/
lemma sha256Bytes_length (msg : List Nat) : (sha256Bytes msg).length = 32 := rfl

/-- Hex-printing one byte gives two characters. -/
lemma byteHex_length (b : Nat) : (byteHex b).length = 2 := rfl

/-- Hex-printing a byte list doubles its length. -/
lemma flatMap_byteHex_length (l : List Nat) : (l.flatMap byteHex).length = 2 * l.length := by
  induction l with
  | nil => rfl
  | cons b t ih =>
    simp only [List.flatMap_cons, List.length_append, List.length_cons, byteHex_length, ih]
    omega

/-- The hex SHA-256 digest string has exactly 64 characters. -/
lemma sha256hex_length (msg : List Nat) : (sha256hex msg).length = 64 := by
  show ((sha256Bytes msg).flatMap byteHex).length = 64
  rw [flatMap_byteHex_length, sha256Bytes_length]

/-- Indexing the hex alphabet at a reduced index stays inside the alphabet. -/
lemma hexDigit_mem (m : Nat) : hexDigitChars.getD (m % 16) '0' ∈ hexDigitChars := by
  have h : m % 16 < 16 := Nat.mod_lt _ (by norm_num)
  have hlen : hexDigitChars.length = 16 := by decide
  have h16 : m % 16 < hexDigitChars.length := by omega
  rw [List.getD_eq_getElem hexDigitChars '0' h16]
  exact List.getElem_mem h16

/-- Every character of the hex digest is a lowercase hexadecimal digit. -/
lemma sha256hex_lowercase (msg : List Nat) :
    ((sha256hex msg).data.all (fun c => decide (c ∈ hexDigitChars))) = true := by
  rw [List.all_eq_true]
  intro c hc
  rw [decide_eq_true_eq]
  have hc2 : c ∈ (sha256Bytes msg).flatMap byteHex := hc
  rcases List.mem_flatMap.mp hc2 with ⟨b, _, hcb⟩
  simp only [byteHex, List.mem_cons, List.mem_singleton, List.not_mem_nil, or_false] at hcb
  rcases hcb with h | h
  · rw [h]; exact hexDigit_mem (b / 16)
  · rw [h]; exact hexDigit_mem b

/-- New never takes its error branches: Write on a sha256 state reports the
    full length, and the 64-character hex digest is not shorter than
    sha256.BlockSize. -/
lemma New_ok (out : Nat) (val : List Nat) :
    New out val = Except.ok ⟨out, sha256hex val⟩ := by
  unfold New
  rw [if_neg (by omega), if_neg (by rw [sha256hex_length]; omega)]

/-- C9: for every writer handle and input byte slice, New returns without
    error a Fingerprint whose hash is the 64-character lowercase hexadecimal
    SHA-256 digest of the input (so the short-write and hash-length error
    branches are unreachable), and the digest function is deterministic:
    equal inputs yield equal digests. -/
theorem claim_C9_New_total_sha256 (out : Nat) (val : List Nat) :
    New out val = Except.ok ⟨out, sha256hex val⟩ ∧
    (sha256hex val).length = 64 ∧
    ((sha256hex val).data.all (fun c => decide (c ∈ hexDigitChars))) = true ∧
    ∀ val2 : List Nat, val = val2 → sha256hex val = sha256hex val2 := by
  refine ⟨New_ok out val, sha256hex_length val, sha256hex_lowercase val, ?_⟩
  intro val2 h
  rw [h]

/-- Witness for C9 at the empty input. -/
theorem claim_C9_witness :
    New 0 [] = Except.ok ⟨0, sha256hex []⟩ ∧ sha256hex [] = sha256hex [] :=
  ⟨(claim_C9_New_total_sha256 0 []).1, (claim_C9_New_total_sha256 0 []).2.2.2 [] rfl⟩

/-- C2 (amended): for a fingerprint produced by New, validation fails if and
    only if the previous content has length greater than 1 and differs from
    the fingerprint's digest, and then the error is the ValidationError
    whose message carries both digests; validating against the fingerprint's
    own digest succeeds, and validating against an empty store succeeds. -/
theorem claim_C2_validate_mismatch (out : Nat) (val : List Nat) (fp : Fingerprint)
    (p : String) (hnew : New out val = Except.ok fp) :
    (validate fp p = Except.error (FPError.validation (mismatchMsg p fp.hash)) ↔
      1 < p.length ∧ p ≠ fp.hash) ∧
    validate fp fp.hash = Except.ok () ∧
    validate fp "" = Except.ok () := by
  refine ⟨⟨?_, ?_⟩, ?_, ?_⟩
  · intro h
    unfold validate at h
    split_ifs at h with hc
    · exact hc
  · intro hc
    unfold validate
    rw [if_pos hc]
  · unfold validate
    rw [if_neg]
    rintro ⟨-, h⟩
    exact h rfl
  · unfold validate
    rw [if_neg]
    rintro ⟨h, -⟩
    exact absurd h (by decide)

/-- Witness for C2 with the fingerprint of the empty input. -/
theorem claim_C2_witness :
    validate ⟨0, sha256hex []⟩ (sha256hex []) = Except.ok () ∧
    validate ⟨0, sha256hex []⟩ "" = Except.ok () :=
  ⟨(claim_C2_validate_mismatch 0 [] ⟨0, sha256hex []⟩ "x" (New_ok 0 [])).2.1,
   (claim_C2_validate_mismatch 0 [] ⟨0, sha256hex []⟩ "x" (New_ok 0 [])).2.2⟩

/-- Counterexample to C2 as stated: the previous content "x" is non-empty
    and differs from the digest of the fingerprint computed from the empty
    input, yet validation succeeds (no ValidationError), because the code
    requires the previous digest to be longer than one byte, not non-empty. -/
theorem claim_C2_counterexample :
    New 0 [] = Except.ok ⟨0, sha256hex []⟩ ∧
    "x" ≠ "" ∧
    "x" ≠ sha256hex [] ∧
    validate ⟨0, sha256hex []⟩ "x" = Except.ok () := by
  refine ⟨New_ok 0 [], by decide, ?_, ?_⟩
  · intro h
    have h64 := sha256hex_length []
    rw [← h] at h64
    exact absurd h64 (by decide)
  · unfold validate
    rw [if_neg]
    rintro ⟨h1, -⟩
    exact absurd h1 (by decide)

/-- C10: a previously persisted digest of length 0 or 1 is treated as
    absent: validation succeeds for every fingerprint, even when the
    previous content is non-empty and differs from the digest. -/
theorem claim_C10_short_prev_accepted (fp : Fingerprint) (p : String)
    (h : p.length ≤ 1) : validate fp p = Except.ok () := by
  unfold validate
  rw [if_neg]
  rintro ⟨h1, -⟩
  omega

/-- Witness for C10: the one-byte content "x" differs from the digest
    "abc" yet validates. -/
theorem claim_C10_witness :
    "x".length ≤ 1 ∧ validate ⟨0, "abc"⟩ "x" = Except.ok () :=
  ⟨by decide, claim_C10_short_prev_accepted ⟨0, "abc"⟩ "x" (by decide)⟩

/- Support lemmas about the watch lifecycle primitives. -/

/-- After the first Start the once gate is closed, so Start is a fixed
    point there. -/
lemma Start_Start_NewWatch : Start (Start NewWatch) = Start NewWatch := rfl

/-- Pairing every element with a constant and projecting the first
    component gives the original list back. -/
lemma map_fst_pair (l : List Nat) (ch : Nat) :
    (l.map (fun s => (s, ch))).map Prod.fst = l := by
  induction l with
  | nil => rfl
  | cons a t ih => simp [ih]

/-- Subscribing a list of targets in order appends them in order. -/
lemma foldl_Subscribe_listeners (targets : List Nat) (w : Watch) :
    (targets.foldl Subscribe w).listeners = w.listeners ++ targets := by
  induction targets generalizing w with
  | nil => simp
  | cons t ts ih => simp [List.foldl_cons, ih, Subscribe]

/-- C3: starting a fresh watcher n times (n at least 1; concurrent calls
    are serialized by the sync.Once gate, so any interleaving is some such
    sequence) leaves the state of the single first Start: the startup body
    StartUnsafe ran exactly once, every later call was a no-op, and the
    watcher is Running. -/
theorem claim_C3_start_once (n : Nat) (h : 1 ≤ n) :
    Start^[n] NewWatch = Start NewWatch ∧
    (Start NewWatch).startUnsafeRuns = 1 ∧
    (Start NewWatch).Running = true := by
  refine ⟨?_, rfl, rfl⟩
  obtain ⟨m, rfl⟩ : ∃ m, n = m + 1 := ⟨n - 1, by omega⟩
  induction m with
  | zero => rfl
  | succ k ih =>
    rw [Function.iterate_succ_apply', ih (by omega), Start_Start_NewWatch]

/-- Witness for C3 at n = 3. -/
theorem claim_C3_witness :
    Start^[3] NewWatch = Start NewWatch ∧
    (Start NewWatch).startUnsafeRuns = 1 ∧
    (Start NewWatch).Running = true :=
  claim_C3_start_once 3 (by decide)

/-- C4: Stop is a no-op on a watcher that is not Running; on a Running
    watcher it clears Running, runs the StopFn teardown once, sends on the
    stop channel once, and a second consecutive Stop changes nothing. -/
theorem claim_C4_stop_idempotent (w : Watch) :
    (w.Running = false → Stop w = w) ∧
    (w.Running = true →
      (Stop w).Running = false ∧
      (Stop w).stopFnRuns = w.stopFnRuns + 1 ∧
      (Stop w).stopKeySends = w.stopKeySends + 1 ∧
      Stop (Stop w) = Stop w) := by
  rcases w with ⟨running, od, su, sf, sk, ls⟩
  cases running <;> simp [Stop]

/-- Witness for C4 on a started fresh watcher. -/
theorem claim_C4_witness :
    (Stop (StartUnsafe NewWatch)).Running = false ∧
    (Stop (StartUnsafe NewWatch)).stopFnRuns = (StartUnsafe NewWatch).stopFnRuns + 1 ∧
    (Stop (StartUnsafe NewWatch)).stopKeySends = (StartUnsafe NewWatch).stopKeySends + 1 ∧
    Stop (Stop (StartUnsafe NewWatch)) = Stop (StartUnsafe NewWatch) :=
  (claim_C4_stop_idempotent (StartUnsafe NewWatch)).2 rfl

/-- C5: emitting a sample on a watcher whose targets were subscribed in a
    given order performs one delivery per subscribed target, in exactly the
    subscription order, so every subscribed target receives the sample; the
    Go method has no error result, so Emit cannot return an error. -/
theorem claim_C5_emit_order (targets : List Nat) (s : Nat) :
    Emit (targets.foldl Subscribe NewWatch) s = targets.map (fun t => (t, s)) ∧
    (Emit (targets.foldl Subscribe NewWatch) s).map Prod.fst = targets ∧
    ∀ t, t ∈ targets → (t, s) ∈ Emit (targets.foldl Subscribe NewWatch) s := by
  have h : Emit (targets.foldl Subscribe NewWatch) s = targets.map (fun t => (t, s)) := by
    simp [Emit, foldl_Subscribe_listeners, NewWatch]
  refine ⟨h, ?_, ?_⟩
  · rw [h]
    exact map_fst_pair targets s
  · intro t ht
    rw [h]
    exact List.mem_map.mpr ⟨t, ht, rfl⟩

/-- Witness for C5 with targets 1, 2 and sample 7. -/
theorem claim_C5_witness :
    Emit ([1, 2].foldl Subscribe NewWatch) 7 = [(1, 7), (2, 7)] ∧
    (1, 7) ∈ Emit ([1, 2].foldl Subscribe NewWatch) 7 :=
  ⟨(claim_C5_emit_order [1, 2] 7).1.trans (by decide),
   (claim_C5_emit_order [1, 2] 7).2.2 1 (by decide)⟩

/-- C7: NewTimerWatch keeps a positive configured interval unchanged and
    replaces an unset or non-positive one by one second. -/
theorem claim_C7_interval_default (conf : TimerWatchConf) :
    (conf.Interval ≤ 0 → (NewTimerWatch conf).conf.Interval = timeSecond) ∧
    (0 < conf.Interval → (NewTimerWatch conf).conf.Interval = conf.Interval) := by
  constructor
  · intro h
    have hc : conf.Interval < 1 := by omega
    simp [NewTimerWatch, if_pos hc]
  · intro h
    have hc : ¬conf.Interval < 1 := by omega
    simp [NewTimerWatch, if_neg hc]

/-- Witness for C7 at intervals 0 and 5. -/
theorem claim_C7_witness :
    (NewTimerWatch ⟨0⟩).conf.Interval = timeSecond ∧
    (NewTimerWatch ⟨5⟩).conf.Interval = 5 :=
  ⟨(claim_C7_interval_default ⟨0⟩).1 (by decide),
   (claim_C7_interval_default ⟨5⟩).2 (by decide)⟩

/-- C8: evaluation of the code at the claim's scenario.  The claim states
    the intended contract (ResetConfig returns without error after clearing
    the discovered facts, and IsConfigured then reports false, as the
    code's own comments document), but both method bodies are the stub
    panic("implement me!"), so neither returns at all. -/
theorem claim_C8_stub_panics :
    ResetConfig ⟨⟩ = GoResult.panicked "implement me!" ∧
    IsConfigured ⟨⟩ = GoResult.panicked "implement me!" :=
  ⟨rfl, rfl⟩

/- Support lemmas for the shared-channel model of the stream registry. -/

/-- Conservation along any run: the delivered samples (in delivery order)
    followed by the samples still queued equal the initial ones followed by
    everything pushed, in push order. -/
lemma chFold_conservation (evs : List ChEvent) (st : ChState) :
    ((evs.foldl chStep st).log.map Prod.snd) ++ (evs.foldl chStep st).queue =
      (st.log.map Prod.snd) ++ st.queue ++ pushesOf evs := by
  induction evs generalizing st with
  | nil => simp [pushesOf]
  | cons e r ih =>
    cases e with
    | push s => simp [List.foldl_cons, chStep, ih, pushesOf]
    | recv i =>
      cases hq : st.queue with
      | nil => simp [List.foldl_cons, chStep, hq, ih, pushesOf]
      | cons x t => simp [List.foldl_cons, chStep, hq, ih, pushesOf]

/-- Conservation from the empty channel: deliveries plus the queue are
    exactly the pushed samples, so nothing is lost or duplicated overall. -/
lemma chRun_conservation (evs : List ChEvent) :
    (chRun evs).log.map Prod.snd ++ (chRun evs).queue = pushesOf evs := by
  have h := chFold_conservation evs ⟨[], []⟩
  simpa [chRun] using h

/-- What one sink observes is a subsequence of the pushed samples: per-sink
    order follows push order with no duplication. -/
lemma observed_sublist (evs : List ChEvent) (i : Nat) :
    List.Sublist (observed (chRun evs) i) (pushesOf evs) := by
  have h1 : List.Sublist ((chRun evs).log.filter (fun p => p.1 == i)) (chRun evs).log :=
    List.filter_sublist _
  have h2 : List.Sublist (observed (chRun evs) i) ((chRun evs).log.map Prod.snd) :=
    h1.map Prod.snd
  refine h2.trans ?_
  rw [← chRun_conservation evs]
  exact List.sublist_append_left _ _

/-- When every receive targets sink 0, every delivery in the log went to
    sink 0. -/
lemma chFold_log_sink0 (evs : List ChEvent) (st : ChState)
    (hv : recvsOnlySink0 evs = true)
    (hst : ∀ p ∈ st.log, p.1 = 0) :
    ∀ p ∈ (evs.foldl chStep st).log, p.1 = 0 := by
  induction evs generalizing st with
  | nil => simpa using hst
  | cons e r ih =>
    have hv2 : recvsOnlySink0 r = true := by
      rw [recvsOnlySink0, List.all_cons, Bool.and_eq_true] at hv
      exact hv.2
    rw [List.foldl_cons]
    cases e with
    | push s =>
      refine ih _ hv2 ?_
      intro p hp
      exact hst p (by simpa [chStep] using hp)
    | recv i =>
      have hi : i = 0 := by
        rw [recvsOnlySink0, List.all_cons, Bool.and_eq_true] at hv
        simpa using hv.1
      refine ih _ hv2 ?_
      intro p hp
      rcases hq : st.queue with _ | ⟨x, t⟩
      · simp only [chStep, hq] at hp
        exact hst p hp
      · simp only [chStep, hq, List.mem_append, List.mem_singleton] at hp
        rcases hp with hp | hp
        · exact hst p hp
        · rw [hp, hi]

/-- With a single consuming sink that drains the channel, that sink
    observes exactly the pushed sequence in order. -/
lemma single_sink_exact (evs : List ChEvent)
    (h0 : recvsOnlySink0 evs = true) (hq : (chRun evs).queue = []) :
    observed (chRun evs) 0 = pushesOf evs := by
  have hall : ∀ p ∈ (chRun evs).log, p.1 = 0 :=
    chFold_log_sink0 evs ⟨[], []⟩ h0 (by simp)
  have hfilter : (chRun evs).log.filter (fun p => p.1 == 0) = (chRun evs).log := by
    rw [List.filter_eq_self]
    intro p hp
    exact beq_iff_eq.mpr (hall p hp)
  have hcons := chRun_conservation evs
  rw [hq, List.append_nil] at hcons
  rw [observed, hfilter]
  exact hcons

/-- C1 (amended): Start hands every registered sink, in registration order,
    the one shared channel; the channel partitions the pushed samples among
    the competing sinks: the deliveries plus the still-queued samples are
    exactly the pushed sequence (each sample reaches at most one sink, no
    duplication), each sink observes a subsequence of the pushes (order
    kept, no reordering), and only a lone consuming sink that drains the
    channel observes every pushed sample in order. -/
theorem claim_C1_shared_channel (sinks : List Nat) (ch : Nat) (evs : List ChEvent) :
    (StreamRegisterer.Start ⟨sinks⟩ ch).map Prod.fst = sinks ∧
    (StreamRegisterer.Start ⟨sinks⟩ ch).map Prod.snd = List.replicate sinks.length ch ∧
    (chRun evs).log.map Prod.snd ++ (chRun evs).queue = pushesOf evs ∧
    (∀ i : Nat, List.Sublist (observed (chRun evs) i) (pushesOf evs)) ∧
    (recvsOnlySink0 evs = true → (chRun evs).queue = [] →
      observed (chRun evs) 0 = pushesOf evs) := by
  refine ⟨?_, ?_, chRun_conservation evs, fun i => observed_sublist evs i,
    fun h0 hq => single_sink_exact evs h0 hq⟩
  · rw [StreamRegisterer.Start]
    exact map_fst_pair sinks ch
  · rw [StreamRegisterer.Start]
    induction sinks with
    | nil => rfl
    | cons a t ih => simpa [List.replicate_succ] using ih

/-- Witness for C1: two sinks started on channel 5, and a drained
    single-sink run observing both pushed samples. -/
theorem claim_C1_witness :
    (StreamRegisterer.Start ⟨[10, 11]⟩ 5).map Prod.fst = [10, 11] ∧
    observed (chRun [ChEvent.push 7, ChEvent.recv 0, ChEvent.push 8, ChEvent.recv 0]) 0 =
      pushesOf [ChEvent.push 7, ChEvent.recv 0, ChEvent.push 8, ChEvent.recv 0] :=
  ⟨(claim_C1_shared_channel [10, 11] 5 []).1,
   (claim_C1_shared_channel [10, 11] 5
      [ChEvent.push 7, ChEvent.recv 0, ChEvent.push 8, ChEvent.recv 0]).2.2.2.2
      (by decide) (by decide)⟩

/-- Counterexample to C1 as stated: sinks 10 and 11 are registered in that
    order and Start hands both the same channel 5; the sample 7 is pushed
    onto that shared channel and consumed (the queue drains), sink 0
    observes it, and sink 1 observes nothing — not every registered sink
    observes every pushed sample, because competing receivers on one Go
    channel split the stream instead of each seeing a copy. -/
theorem claim_C1_counterexample :
    Register ⟨[]⟩ [10, 11] = ⟨[10, 11]⟩ ∧
    StreamRegisterer.Start ⟨[10, 11]⟩ 5 = [(10, 5), (11, 5)] ∧
    pushesOf [ChEvent.push 7, ChEvent.recv 0] = [7] ∧
    (chRun [ChEvent.push 7, ChEvent.recv 0]).queue = [] ∧
    observed (chRun [ChEvent.push 7, ChEvent.recv 0]) 0 = [7] ∧
    observed (chRun [ChEvent.push 7, ChEvent.recv 0]) 1 = [] ∧
    observed (chRun [ChEvent.push 7, ChEvent.recv 0]) 1 ≠
      pushesOf [ChEvent.push 7, ChEvent.recv 0] := by
  decide

/-- C6 (amended): once the loop observes the stop signal (the select takes
    the StopKey branch), it returns at once: whatever iterations would have
    followed contribute no emission, so nothing is emitted at or after the
    iteration that observes stop. -/
theorem claim_C6_stop_observed_no_emit (pre : List LoopIter) (it : LoopIter)
    (post : List LoopIter) (h : it.pickStop = true) :
    timerLoopRun (pre ++ it :: post) = timerLoopRun pre := by
  induction pre with
  | nil => simp [timerLoopRun, h]
  | cons j rest ih =>
    cases hj : j.pickStop <;> simp [timerLoopRun, hj, ih]

/-- Witness for C6: a run of one timer tick, then an observed stop, then a
    further elapsed timer iteration that emits nothing. -/
theorem claim_C6_witness :
    timerLoopRun [⟨true, false, false⟩, ⟨false, true, true⟩, ⟨true, false, false⟩] =
      timerLoopRun [⟨true, false, false⟩] :=
  claim_C6_stop_observed_no_emit [⟨true, false, false⟩] ⟨false, true, true⟩
    [⟨true, false, false⟩] rfl

/-- Counterexample to C6 as stated: a valid select behavior in which, at an
    iteration where both the elapsed interval and the stop signal are
    available, the loop emits the sample 0 and keeps looping instead of
    exiting without emitting — a Go select chooses among ready cases with no
    priority, so stop does not take priority. -/
theorem claim_C6_counterexample :
    validSched [⟨true, true, false⟩, ⟨true, true, true⟩] = true ∧
    (⟨true, true, false⟩ : LoopIter).timerReady = true ∧
    (⟨true, true, false⟩ : LoopIter).stopReady = true ∧
    timerLoopRun [⟨true, true, false⟩, ⟨true, true, true⟩] = [0] ∧
    timerLoopRun [⟨true, true, false⟩, ⟨true, true, true⟩] ≠ [] := by
  decide

end Agent




